import Mathlib

/-
Verification development for the QDMpy ODMR fitting core
(src/QDMpy/core/fit.py and src/QDMpy/_core/models.py).

The Python code is shallowly embedded: numpy float arrays become lists of
rationals (ℚ); IEEE non-finite results (NaN/Inf, which arise only from the
division in normalized_cumsum and guess_contrast) are modelled by Option,
with none marking a poisoned (non-finite) value; Python exceptions become
an Except monad with an explicit error type.  All reductions with
axis = -1 in the source act row-wise along the last axis, so the per-row
(per-pixel, per-frequency-range) functions below are the row-wise bodies
of the corresponding numpy expressions.
-/

/- Running cumulative sum, the embedding of np.cumsum along the last axis
(per row).  cumsumFrom acc l prepends acc to every partial sum. -/
def cumsumFrom (acc : ℚ) : List ℚ → List ℚ
  | [] => []
  | x :: xs => (acc + x) :: cumsumFrom (acc + x) xs

def cumsum (l : List ℚ) : List ℚ := cumsumFrom 0 l

/- First index of the minimum of a list (the embedding of np.argmin, which
returns the first occurrence on ties).  argminAux carries the position of
the next element, the best index so far and the best value so far. -/
def argminAux : List ℚ → ℕ → ℕ → ℚ → ℕ
  | [], _, best, _ => best
  | x :: xs, i, best, bv =>
      if x < bv then argminAux xs (i + 1) i x else argminAux xs (i + 1) best bv

def argminList : List ℚ → ℕ
  | [] => 0
  | x :: xs => argminAux xs 1 0 x

/- Minimum and maximum of a row (np.min / np.max along the last axis).
The rows reaching these in the source are non-empty spectra. -/
def minD (l : List ℚ) : ℚ := l.foldl min (l.headD 0)

def maxD (l : List ℚ) : ℚ := l.foldl max (l.headD 0)

/- Embedding of normalized_cumsum (fit.py): cumulative sum of (data - 1),
shifted by its row minimum and divided by the row maximum of the shifted
values.  When that maximum is zero the Python code divides 0 by 0,
producing a row of NaN; this is modelled by returning none. -/
def normalized_cumsum (data : List ℚ) : Option (List ℚ) :=
  let cs := cumsum (data.map (fun x => x - 1))
  let shifted := cs.map (fun x => x - minD cs)
  let mx := maxD shifted
  if mx = 0 then none else some (shifted.map (fun x => x / mx))

/- Embedding of guess_center_freq_single (fit.py): frequency at the index
whose normalized cumulative value is closest to 0.5. -/
def guess_center_freq_single (data freq : List ℚ) : Option ℚ :=
  (normalized_cumsum data).map (fun c =>
    freq.getD (argminList (c.map (fun x => |x - 1/2|))) 0)

/- Embedding of guess_width_single (fit.py): freq[lidx] - freq[ridx] where
lidx is the index of the normalized cumulative value closest to 0.25 and
ridx the index of the value closest to 0.75. -/
def guess_width_single (data freq : List ℚ) : Option ℚ :=
  (normalized_cumsum data).map (fun c =>
    freq.getD (argminList (c.map (fun x => |x - 1/4|))) 0
      - freq.getD (argminList (c.map (fun x => |x - 3/4|))) 0)

/- Per-pixel width guess: guess_width (fit.py) stacks the per-range
guess_width_single outputs and divides the whole array by 6; element-wise
this is guess_width_single composed with division by 6. -/
def guess_width_pixel (data freq : List ℚ) : Option ℚ :=
  (guess_width_single data freq).map (fun w => w / 6)

/- Embedding of guess_contrast (fit.py) per row:
0.9 * |(max - min) / max| along the frequency axis.  A zero row maximum
makes the Python float division non-finite (modelled as none). -/
def guess_contrast_single (row : List ℚ) : Option ℚ :=
  let mx := maxD row
  let mn := minD row
  if mx = 0 then none else some (|(mx - mn) / mx| * (9 / 10))

/- Concrete numpy array model: a C-order (row-major) flat buffer of
rationals together with its shape.  np.reshape and np.squeeze keep the
buffer and rewrite the shape; np.stack and np.swapaxes are materialized
in C order. -/
structure NpArray where
  shape : List ℕ
  data : List ℚ
deriving DecidableEq, Repr

/- C-order flat offset of a multi-index: offset (i :: is) in shape
(s :: ss) is i * prod ss + offset of is in ss. -/
def flatIdx : List ℕ → List ℕ → ℕ
  | _ :: ss, i :: is => i * ss.prod + flatIdx ss is
  | _, _ => 0

def npGet (a : NpArray) (idx : List ℕ) : ℚ :=
  a.data.getD (flatIdx a.shape idx) 0

/- result.reshape((npol, npix, -1)): numpy computes the last dimension as
the total size divided by npol * npix; the buffer is unchanged. -/
def reshape3 (a : NpArray) (n0 n1 : ℕ) : NpArray :=
  ⟨[n0, n1, a.data.length / (n0 * n1)], a.data⟩

/- np.squeeze: drop all axes of extent 1; the C-order buffer is
unchanged. -/
def squeeze (a : NpArray) : NpArray :=
  ⟨a.shape.filter (fun d => d ≠ 1), a.data⟩

/- np.stack((a, b)): new leading axis of extent 2; in C order the result
buffer is the two buffers concatenated.  numpy raises for mismatched
shapes; every call site in fit_odmr stacks arrays of equal shape. -/
def stack2 (a b : NpArray) : NpArray :=
  ⟨2 :: a.shape, a.data ++ b.data⟩

/- np.swapaxes(a, 0, 1) materialized in C order: entry (j, i, rest) of
the result is entry (i, j, rest) of a.  For fewer than two axes numpy
raises; fit_odmr only swaps the stacked 4-D parameter array. -/
def swapaxes01 (a : NpArray) : NpArray :=
  match a.shape with
  | d0 :: d1 :: rest =>
      let m := rest.prod
      ⟨d1 :: d0 :: rest,
       (List.range (d1 * (d0 * m))).map (fun t =>
         let j := t / (d0 * m)
         let r := t % (d0 * m)
         let i := r / m
         let o := r % m
         a.data.getD ((i * (d1 * m)) + (j * m) + o) 0)⟩
  | _ => a

/- Model registry (QDMpy/_core/models.py, IMPLEMENTED).  The numba
evaluator functions are not embedded: no claim concerns model evaluation,
only the registry metadata consumed by Fit. -/
structure ModelDict where
  nPeaks : ℕ
  params : List String
  modelId : ℕ
deriving DecidableEq, Repr

def IMPLEMENTED : String → Option ModelDict
  | "GAUSS1D" => some ⟨1, ["center", "width", "contrast", "offset"], 0⟩
  | "ESR14N" => some ⟨3, ["center", "width", "contrast", "contrast", "contrast", "offset"], 13⟩
  | "ESR15N" => some ⟨2, ["center", "width", "contrast", "contrast", "offset"], 14⟩
  | "ESRSINGLE" => some ⟨1, ["center", "width", "contrast", "offset"], 15⟩
  | _ => none

/- list(models.IMPLEMENTED.keys()) in Python dict insertion order. -/
def IMPLEMENTED_keys : List String := ["GAUSS1D", "ESR14N", "ESR15N", "ESRSINGLE"]

def UNITS : String → Option String
  | "center" => some "GHz"
  | "width" => some "GHz"
  | "contrast" => some "a.u."
  | "offset" => some "a.u."
  | _ => none

def CONSTRAINT_TYPES : List String := ["FREE", "LOWER", "UPPER", "LOWER_UPPER"]

def ESTIMATOR_ID : String → Option ℕ
  | "LSE" => some 0
  | "MLE" => some 1
  | _ => none

/- Embedding of Fit.fitting_parameter_unique: walk the template; a kind
occurring more than once receives the first suffix _n (n in range(10))
not yet present in the accumulated list; a unique kind keeps its bare
name.  Python appends nothing when the inner loop finds no free suffix
(unreachable for the registered models). -/
def fitting_parameter_unique (params : List String) : List String :=
  params.foldl
    (fun lst v =>
      if params.count v > 1 then
        match (List.range 10).find? (fun n => !(lst.contains (v ++ "_" ++ toString n))) with
        | some n => lst ++ [v ++ "_" ++ toString n]
        | none => lst
      else lst ++ [v])
    []

/- Stored constraint entry: [vmin, vmax, constraint_type, unit]
(Fit._constraints values).  vmin/vmax/constraint_type may be Python
None. -/
structure Constraint where
  vmin : Option ℚ
  vmax : Option ℚ
  ctype : Option String
  unit : String
deriving DecidableEq, Repr

/- Python exceptions raised by the embedded code.  The payloads record
what the messages carry: the model setter's ValueError enumerates
list(IMPLEMENTED.keys()); set_constraints' ValueError enumerates
CONSTRAINT_TYPES; dictionary misses are KeyError.  The spec's taxonomy
names these ConfigurationError (unknown model / constraint type) and
ParameterLookupError (unknown parameter, or result requested before a
fit). -/
inductive PyErr where
  | unknownModel (choices : List String)
  | unknownConstraintType (choices : List String)
  | keyError (key : String)
  | notImplemented (msg : String)
  | unknownParameter (name : String)
deriving DecidableEq, Repr

/- Array with possibly non-finite (NaN/Inf) entries, used for the initial
parameter guess, where degenerate pixels poison entries (none). -/
structure NpArrayO where
  shape : List ℕ
  data : List (Option ℚ)
deriving DecidableEq, Repr

/- The five per-fit result attributes (_fit_results, _states,
_chi_squares, _number_iterations, _execution_time).  They are always
assigned together by fit_odmr and cleared together by _reset_fit, so they
are grouped; _execution_time is a float after one frequency range and a
stacked 1-D array after two. -/
structure FitCache where
  fitResults : NpArray
  states : NpArray
  chiSquares : NpArray
  numberIterations : NpArray
  executionTime : ℚ ⊕ NpArray
deriving DecidableEq, Repr

/- State of a Fit instance (QDMpy/core/fit.py, class Fit).  model is
_model (uppercase), modelParams/modelId mirror _model_dict, cache = none
together with fitted = false is the _reset_fit state. -/
structure FitState where
  data : NpArray
  fGhz : NpArray
  model : String
  modelParams : List String
  modelId : ℕ
  initialParameter : Option NpArrayO
  fitted : Bool
  cache : Option FitCache
  constraints : String → Option Constraint
  estimatorId : ℕ

/- Row (pol i, range j, pixel x) of the 4-D data buffer, of length
nfreq = shape[3]. -/
def rowAt (a : NpArray) (start len : ℕ) : List ℚ :=
  (a.data.drop start).take len

/- Structural prefix test on character lists (needle is a prefix of the
haystack). -/
def charsPrefixOf : List Char → List Char → Bool
  | [], _ => true
  | _ :: _, [] => false
  | a :: as, b :: bs => a == b && charsPrefixOf as bs

/- Structural substring test, the embedding of the Python membership test
needle in haystack on strings. -/
def charsContains : List Char → List Char → Bool
  | [], needle => needle.isEmpty
  | h :: t, needle => charsPrefixOf needle (h :: t) || charsContains t needle

def strContainsSub (hay needle : String) : Bool :=
  charsContains hay.toList needle.toList

/- param.split("_")[0]: the kind (family) prefix of a slot name, i.e. the
characters before the first underscore. -/
def familyOf (param : String) : String :=
  String.mk (param.toList.takeWhile (fun c => c != '_'))

/- Embedding of Fit.get_initial_parameter together with the _guess_*
helpers it dispatches to.  The source stacks the per-kind guess arrays
(each of shape [npol, nrange, npix]) along a new last axis; guess_center
stacks per-range columns along axis 0 and then swaps axes 0/1, and
guess_width stacks along axis 1, so in both cases entry [i, j, x] is the
single-range guess of pixel row (i, j, x) against frequency row j.
Element-wise that stacking yields entry [i, j, x, k] = guess of kind
params[k] at pixel (i, j, x), which is how the array is built here.
Entries are Option ℚ: none marks the NaN/Inf a degenerate pixel produces
in float arithmetic.  An unregistered kind would make getattr raise
AttributeError; the registered templates only contain the four kinds. -/
def get_initial_parameter (s : FitState) : NpArrayO :=
  let r := s.data.shape.getD 1 0
  let x := s.data.shape.getD 2 0
  let f := s.data.shape.getD 3 0
  let nf := s.fGhz.shape.getD 1 0
  let row := fun i j p => rowAt s.data ((((i * r) + j) * x + p) * f) f
  let fRow := fun j => rowAt s.fGhz (j * nf) nf
  let guessOf : String → ℕ → ℕ → ℕ → Option ℚ := fun p i j pix =>
    if p = "center" then guess_center_freq_single (row i j pix) (fRow j)
    else if p = "width" then guess_width_pixel (row i j pix) (fRow j)
    else if p = "contrast" then guess_contrast_single (row i j pix)
    else if p = "offset" then some 0
    else none
  ⟨[s.data.shape.getD 0 0, r, x, s.modelParams.length],
   (List.range (s.data.shape.getD 0 0)).flatMap (fun i =>
     (List.range r).flatMap (fun j =>
       (List.range x).flatMap (fun pix =>
         s.modelParams.map (fun p => guessOf p i j pix))))⟩

/- Embedding of Python str.upper() on the ASCII model names, written
structurally over the character list. -/
def strToUpper (s : String) : String :=
  String.mk (s.toList.map Char.toUpper)

/- Embedding of the Fit.model setter.  The membership test uses
model.upper(), _model is assigned model.upper(), but the _model_dict
lookup indexes IMPLEMENTED with the raw string, so a known model name
that is not already uppercase passes the test and then raises KeyError.
On success the setter resets the fit state and recomputes the initial
parameter from the new template. -/
def set_model (s : FitState) (model : String) : Except PyErr FitState :=
  if !(IMPLEMENTED_keys.contains (strToUpper model)) then
    .error (.unknownModel IMPLEMENTED_keys)
  else
    match IMPLEMENTED model with
    | none => .error (.keyError model)
    | some d =>
        let s1 : FitState :=
          { s with model := strToUpper model, modelParams := d.params, modelId := d.modelId,
                   fitted := false, cache := none }
        .ok { s1 with initialParameter := some (get_initial_parameter s1) }

/- Embedding of the Fit.data setter: if np.all(_data == data) the
assignment returns immediately; otherwise the data is replaced, the
cached initial parameter is dropped and _reset_fit clears the fit.
For same-shaped arrays np.all of the element-wise comparison is exactly
structural equality of shape and buffer. -/
def set_data (s : FitState) (d : NpArray) : FitState :=
  if s.data = d then s
  else { s with data := d, initialParameter := none, fitted := false, cache := none }

/- The store branch of Fit.set_constraints: record
[vmin, vmax, constraint_type, UNITS[param.split("_")[0]]] under param and
reset the fit.  A family without a unit entry raises KeyError. -/
def set_constraints_store (s : FitState) (param : String) (vmin vmax : Option ℚ)
    (ctype : Option String) : Except PyErr FitState :=
  match UNITS (familyOf param) with
  | none => .error (.keyError (familyOf param))
  | some u =>
      .ok { s with
            constraints := fun k =>
              if k = param then some ⟨vmin, vmax, ctype, u⟩ else s.constraints k,
            fitted := false, cache := none }

/- One Fit.set_constraints call that does not fan out (param is a slot
name, or a family with a single slot): validate the constraint type, then
store.  The isinstance(constraint_type, int) branch converts an integer
index into CONSTRAINT_TYPES; the embedding takes the string form the
claims use. -/
def set_constraints_one (s : FitState) (param : String) (vmin vmax : Option ℚ)
    (ctype : Option String) : Except PyErr FitState :=
  match ctype with
  | some t =>
      if !(CONSTRAINT_TYPES.contains t) then
        .error (.unknownConstraintType CONSTRAINT_TYPES)
      else set_constraints_store s param vmin vmax ctype
  | none => set_constraints_store s param vmin vmax ctype

/- Embedding of Fit.set_constraints.  When param is the bare family
"contrast" and the unique slot list differs from the template (i.e. some
kind repeats), the call fans out over every unique slot whose name
contains "contrast" as a substring; each recursive call has a slot name
different from "contrast" and so lands in the store branch after
re-validating the constraint type. -/
def set_constraints (s : FitState) (param : String) (vmin vmax : Option ℚ)
    (ctype : Option String) : Except PyErr FitState :=
  match ctype with
  | some t =>
      if !(CONSTRAINT_TYPES.contains t) then
        .error (.unknownConstraintType CONSTRAINT_TYPES)
      else if param = "contrast" ∧ fitting_parameter_unique s.modelParams ≠ s.modelParams then
        ((fitting_parameter_unique s.modelParams).filter
            (fun v => strContainsSub v ("contrast"))).foldlM
          (fun st slot => set_constraints_one st slot vmin vmax ctype) s
      else set_constraints_store s param vmin vmax ctype
  | none =>
      if param = "contrast" ∧ fitting_parameter_unique s.modelParams ≠ s.modelParams then
        ((fitting_parameter_unique s.modelParams).filter
            (fun v => strContainsSub v ("contrast"))).foldlM
          (fun st slot => set_constraints_one st slot vmin vmax none) s
      else set_constraints_store s param vmin vmax none

/- Embedding of Fit.get_constraints_array: collect (vmin, vmax) per
unique slot in slot order and tile the flat list into n_pixel identical
rows (np.tile(lst, (n_pixel, 1))).  A slot without a stored constraint
raises KeyError. -/
def get_constraints_array (s : FitState) (nPixel : ℕ) :
    Except PyErr (List (List (Option ℚ))) := do
  let row ← (fitting_parameter_unique s.modelParams).foldlM
    (fun (acc : List (Option ℚ)) k =>
      match s.constraints k with
      | none => .error (.keyError k)
      | some c => .ok (acc ++ [c.vmin, c.vmax]))
    []
  .ok (List.replicate nPixel row)

/- Embedding of Fit.get_constraint_types: integer code of each slot's
constraint type, in slot order. -/
def get_constraint_types (s : FitState) : Except PyErr (List ℕ) :=
  (fitting_parameter_unique s.modelParams).foldlM
    (fun (acc : List ℕ) k =>
      match s.constraints k with
      | none => .error (.keyError k)
      | some c => .ok (acc ++ [CONSTRAINT_TYPES.findIdx (fun t => some t = c.ctype)]))
    []

/- Indices of the template entries equal to p
([i for i, v in enumerate(lst) if v == p]). -/
def indicesOf (l : List String) (p : String) : List ℕ :=
  (List.range l.length).filter (fun i => l.getD i "" = p)

/- Embedding of Fit._param_idx: alias resonance -> center and
mean_contrast -> contrast, look the name up in the template, then in the
unique slot list, else raise (the spec's ParameterLookupError). -/
def param_idx (s : FitState) (parameter : String) : Except PyErr (List ℕ) :=
  let p1 := if parameter = "resonance" then "center" else parameter
  let p2 := if p1 = "mean_contrast" then "contrast" else p1
  let idx := indicesOf s.modelParams p2
  if idx ≠ [] then .ok idx
  else
    let idx2 := indicesOf (fitting_parameter_unique s.modelParams) p2
    if idx2 ≠ [] then .ok idx2
    else .error (.unknownParameter p2)

/- fit_results[:, :, :, idx]: select the listed slots along the last axis
of the 4-D fitted-parameter array. -/
def select_last4 (a : NpArray) (sel : List ℕ) : NpArray :=
  match a.shape with
  | [d0, d1, d2, d3] =>
      ⟨[d0, d1, d2, sel.length],
       (List.range (d0 * d1 * d2)).flatMap (fun rr =>
         sel.map (fun k => a.data.getD (rr * d3 + k) 0))⟩
  | _ => a

/- np.mean(a, axis=-1): drop the last axis, average over it. -/
def mean_last (a : NpArray) : NpArray :=
  let l := (a.shape.getLast?).getD 1
  ⟨a.shape.dropLast,
   (List.range a.shape.dropLast.prod).map (fun rr =>
     ((a.data.drop (rr * l)).take l).sum / (l : ℚ))⟩

/- Embedding of Fit.get_param: before any fit it raises
(NotImplementedError in the source; the spec's ParameterLookupError);
the chi-square aliases return _chi_squares; mean_contrast averages the
selected contrast slots over the last axis. -/
def get_param (s : FitState) (param : String) : Except PyErr NpArray :=
  if !s.fitted then
    .error (.notImplemented ("No fit has been performed yet. Run fit_odmr()."))
  else
    match s.cache with
    | none => .error (.notImplemented ("No fit has been performed yet. Run fit_odmr()."))
    | some c =>
        if param = "chi2" ∨ param = "chi_squares" ∨ param = "chi_squared" then
          .ok c.chiSquares
        else do
          let idx ← param_idx s param
          if param = "mean_contrast" then .ok (mean_last (select_last4 c.fitResults idx))
          else .ok (select_last4 c.fitResults idx)

/- Default constraint bounds and estimator from the configuration
collaborator (QDMpy.SETTINGS["fit"]), passed explicitly. -/
structure FitSettings where
  estimator : String
  centerMin : Option ℚ
  centerMax : Option ℚ
  centerType : Option String
  widthMin : Option ℚ
  widthMax : Option ℚ
  widthType : Option String
  contrastMin : Option ℚ
  contrastMax : Option ℚ
  contrastType : Option String
  offsetMin : Option ℚ
  offsetMax : Option ℚ
  offsetType : Option String
deriving DecidableEq, Repr

/- Embedding of Fit.__init__ (without the optional constraints override):
store data and frequencies, run the model setter on model.upper(), drop
the initial parameter the setter just computed (_initial_parameter = None
follows the setter in the source), reset the fit, resolve the estimator
id and seed the four default family constraints. -/
def mkFit (data fGhz : NpArray) (model : String) (cfg : FitSettings) :
    Except PyErr FitState := do
  let base : FitState :=
    { data := data, fGhz := fGhz, model := "", modelParams := [], modelId := 0,
      initialParameter := none, fitted := false, cache := none,
      constraints := fun _ => none, estimatorId := 0 }
  let s1 ← set_model base (strToUpper model)
  let s2 : FitState := { s1 with initialParameter := none, fitted := false, cache := none }
  let eid ← match ESTIMATOR_ID cfg.estimator with
    | some i => Except.ok i
    | none => Except.error (.keyError cfg.estimator)
  let s3 : FitState := { s2 with estimatorId := eid }
  let s4 ← set_constraints s3 "center" cfg.centerMin cfg.centerMax cfg.centerType
  let s5 ← set_constraints s4 "width" cfg.widthMin cfg.widthMax cfg.widthType
  let s6 ← set_constraints s5 "contrast" cfg.contrastMin cfg.contrastMax cfg.contrastType
  set_constraints s6 "offset" cfg.offsetMin cfg.offsetMax cfg.offsetType

/- Output of one fit_frange call, i.e. of the external batched solver
gpufit.fit_constrained for one frequency range (results positions 0-4):
per-row fitted parameters (n_rows, n_param), state codes (n_rows,),
chi-squares (n_rows,), iteration counts (n_rows,) and the wall time
float.  The solver is external to the repository, so fit_odmr below is
parameterized by the family of results it returns per range index. -/
structure RangeResult where
  parameters : NpArray
  states : NpArray
  chiSquares : NpArray
  numberIterations : NpArray
  executionTime : ℚ
deriving DecidableEq, Repr

/- Embedding of Fit.reshape_result: reshape to
(self.data[0].shape[0], self.data[0].shape[1], -1) and squeeze.  Since
data has shape [npol, nrange, npix, nfreq], data[0].shape is
(nrange, npix, nfreq): the first reshape extent is data.shape[1] (which
equals npol in the supported two-polarization datasets) and the second
is data.shape[2]. -/
def reshape_result (s : FitState) (r : NpArray) : NpArray :=
  squeeze (reshape3 r (s.data.shape.getD 1 0) (s.data.shape.getD 2 0))

/- One iteration of the fit_odmr accumulation: reshape the four array
results of the range (reshape_results skips the float wall time), store
them on the first range, and stack new under old on later ranges
(np.stack((old, new)) puts the range axis first).  Stacking the wall
time turns two floats into a 1-D array; a third range would make
np.stack raise (mixed shapes), which no supported dataset reaches. -/
def accumRange (s : FitState) (acc : Option FitCache) (res : RangeResult) : FitCache :=
  let p := reshape_result s res.parameters
  let st := reshape_result s res.states
  let ch := reshape_result s res.chiSquares
  let ni := reshape_result s res.numberIterations
  match acc with
  | none => ⟨p, st, ch, ni, Sum.inl res.executionTime⟩
  | some c =>
      ⟨stack2 c.fitResults p, stack2 c.states st, stack2 c.chiSquares ch,
       stack2 c.numberIterations ni,
       match c.executionTime with
       | Sum.inl t => Sum.inr ⟨[2], [t, res.executionTime]⟩
       | Sum.inr a => Sum.inr a⟩

/- Embedding of Fit.fit_odmr.  If already fitted it logs and returns at
once.  Otherwise it touches self.initial_parameter (computing and
caching it when absent), runs fit_frange once per frequency range
(data.shape[1] many) and accumulates the reshaped results, and finally
swaps axes 0 and 1 of _fit_results only - the states, chi-squares and
iteration counts keep the frequency-range axis first.  The second
component counts the fit_frange/solver invocations performed. -/
def fit_odmr (s : FitState) (solver : ℕ → RangeResult) : FitState × ℕ :=
  if s.fitted then (s, 0)
  else
    let s0 : FitState :=
      { s with initialParameter := some ((s.initialParameter).getD (get_initial_parameter s)) }
    let nrange := s.data.shape.getD 1 0
    let acc := (List.range nrange).foldl
      (fun (p : Option FitCache × ℕ) irange =>
        (some (accumRange s0 p.1 (solver irange)), p.2 + 1))
      (none, 0)
    ({ s0 with
        cache := acc.1.map (fun c => { c with fitResults := swapaxes01 c.fitResults }),
        fitted := true },
     acc.2)

/-- Modelled from the claim: the unique slot list preserves template
order; a kind occurring more than once is suffixed with its occurrence
index in order of first appearance (the i-th entry gets the number of
earlier occurrences of its kind); a kind occurring once keeps its bare
name. -/
def claimed_unique_slots (params : List String) : List String :=
  (List.range params.length).map (fun i =>
    let v := params.getD i ""
    if params.count v > 1 then v ++ "_" ++ toString ((params.take i).count v) else v)

/- Recursive minimum and maximum of a list (spec-side formulation,
distinct from the fold used by the embedded code). -/
def listMinRec : List ℚ → Option ℚ
  | [] => none
  | x :: xs =>
      match listMinRec xs with
      | none => some x
      | some m => some (min x m)

def listMaxRec : List ℚ → Option ℚ
  | [] => none
  | x :: xs =>
      match listMaxRec xs with
      | none => some x
      | some m => some (max x m)

/-- Modelled from the spec: the cumulative sum of (spectrum - 1) along
frequency, written as prefix sums. -/
def spec_prefix_sums (data : List ℚ) : List ℚ :=
  (List.range data.length).map (fun i => ((data.take (i + 1)).map (fun y => y - 1)).sum)

/-- Modelled from the spec: normalize the cumulative curve to [0, 1] by
subtracting its minimum and dividing by the maximum of the shifted
values; a zero-variance curve (zero maximum) admits no normalization,
the degenerate case the spec flags. -/
def spec_norm_curve (data : List ℚ) : Option (List ℚ) :=
  let cs := spec_prefix_sums data
  let lo := (listMinRec cs).getD 0
  let shifted := cs.map (fun y => y - lo)
  let hi := (listMaxRec shifted).getD 0
  if hi = 0 then none else some (shifted.map (fun y => y / hi))

/-- Modelled from the spec: the index whose curve value is nearest to q,
i.e. the first index minimizing the distance |value - q| (np.argmin
tie-breaking). -/
def nearest_idx (c : List ℚ) (q : ℚ) : ℕ :=
  argminList (c.map (fun x => |x - q|))

/-- Modelled from the claim (C5, as stated): the width guess is the
frequency at the index nearest to cumulative value 0.75 minus the
frequency at the index nearest to 0.25, divided by 6. -/
def claim_width_guess (data freq : List ℚ) : Option ℚ :=
  (spec_norm_curve data).map (fun c =>
    (freq.getD (nearest_idx c (3/4)) 0 - freq.getD (nearest_idx c (1/4)) 0) / 6)

/-- Modelled from the claim (C1): with polarization as the first axis and
frequency range as the second, the state-code entry for polarization i,
frequency range j, pixel x is row i * npix + x of range j's solver
output. -/
def claimed_state_entry (solver : ℕ → RangeResult) (npix i j x : ℕ) : ℚ :=
  (solver j).states.data.getD (i * npix + x) 0

/- Concrete instances used by witnesses and counterexamples. -/

def exData : NpArray := ⟨[2, 2, 1, 2], [1, 1/2, 1, 1/2, 1, 1/2, 1, 1/2]⟩

def exFreq : NpArray := ⟨[2, 2], [0, 1, 2, 3]⟩

def exFit : FitState :=
  { data := exData, fGhz := exFreq, model := "ESRSINGLE",
    modelParams := ["center", "width", "contrast", "offset"], modelId := 15,
    initialParameter := none, fitted := false, cache := none,
    constraints := fun _ => none, estimatorId := 0 }

def cexSolver : ℕ → RangeResult := fun j =>
  match j with
  | 0 =>
      { parameters := ⟨[2, 4], [0, 1, 2, 3, 4, 5, 6, 7]⟩,
        states := ⟨[2], [0, 1]⟩,
        chiSquares := ⟨[2], [20, 21]⟩,
        numberIterations := ⟨[2], [30, 31]⟩,
        executionTime := 0 }
  | _ =>
      { parameters := ⟨[2, 4], [100, 101, 102, 103, 104, 105, 106, 107]⟩,
        states := ⟨[2], [10, 11]⟩,
        chiSquares := ⟨[2], [40, 41]⟩,
        numberIterations := ⟨[2], [50, 51]⟩,
        executionTime := 1 }

def cwData : NpArray :=
  ⟨[2, 2, 2, 2], [1, 1/2, 1, 1/2, 1, 1/2, 1, 1/2, 1, 1/2, 1, 1/2, 1, 1/2, 1, 1/2]⟩

def cwFit : FitState := { exFit with data := cwData }

def cwSolver : ℕ → RangeResult := fun j =>
  match j with
  | 0 =>
      { parameters := ⟨[4, 2], [0, 1, 2, 3, 4, 5, 6, 7]⟩,
        states := ⟨[4], [0, 1, 2, 3]⟩,
        chiSquares := ⟨[4], [20, 21, 22, 23]⟩,
        numberIterations := ⟨[4], [30, 31, 32, 33]⟩,
        executionTime := 0 }
  | _ =>
      { parameters := ⟨[4, 2], [100, 101, 102, 103, 104, 105, 106, 107]⟩,
        states := ⟨[4], [10, 11, 12, 13]⟩,
        chiSquares := ⟨[4], [40, 41, 42, 43]⟩,
        numberIterations := ⟨[4], [50, 51, 52, 53]⟩,
        executionTime := 1 }

def fittedFit : FitState := { exFit with fitted := true }

def esr14nParams : List String :=
  ["center", "width", "contrast", "contrast", "contrast", "offset"]

def c4Fit : FitState :=
  { exFit with
    model := "ESR14N", modelParams := esr14nParams, modelId := 13,
    constraints := fun k =>
      if k = "center" then some ⟨some 2, some 3, some "LOWER_UPPER", "GHz"⟩
      else if k = "width" then some ⟨some 0, some 1, some "LOWER_UPPER", "GHz"⟩
      else if k = "offset" then some ⟨some (-1), some 1, some "FREE", "a.u."⟩
      else none }

def c9Fit : FitState :=
  { exFit with
    constraints := fun k =>
      if k = "center" then some ⟨some 2, some 3, some "LOWER_UPPER", "GHz"⟩
      else if k = "width" then some ⟨some 0, some 1, some "LOWER_UPPER", "GHz"⟩
      else if k = "contrast" then some ⟨some 0, some 1, some "UPPER", "a.u."⟩
      else if k = "offset" then some ⟨some (-1), some 1, some "FREE", "a.u."⟩
      else none }

def exSettings : FitSettings :=
  { estimator := "LSE",
    centerMin := some 2, centerMax := some 3, centerType := some "LOWER_UPPER",
    widthMin := some 0, widthMax := some 1, widthType := some "LOWER_UPPER",
    contrastMin := some 0, contrastMax := some 1, contrastType := some "UPPER",
    offsetMin := some (-1), offsetMax := some 1, offsetType := some "FREE" }

def altData : NpArray := ⟨[2, 2, 1, 2], [1, 1/2, 1, 1/2, 1, 1/2, 1, 3/4]⟩

/- Bridge lemmas relating the embedded code to the spec-side
formulations. -/

lemma cumsumFrom_eq_map (l : List ℚ) :
    ∀ a : ℚ, cumsumFrom a l = (List.range l.length).map (fun i => a + (l.take (i + 1)).sum) := by
  induction l with
  | nil => intro a; simp [cumsumFrom]
  | cons x xs ih =>
      intro a
      simp only [cumsumFrom, List.length_cons, List.range_succ_eq_map, List.map_cons,
        List.map_map, List.take_succ_cons, List.sum_cons]
      congr 1
      · simp
      · rw [ih (a + x)]
        apply List.map_congr_left
        intro i _
        simp [List.take_succ_cons, Function.comp]
        ring

lemma cumsum_eq_map (l : List ℚ) :
    cumsum l = (List.range l.length).map (fun i => (l.take (i + 1)).sum) := by
  rw [cumsum, cumsumFrom_eq_map]
  simp

lemma spec_prefix_sums_eq (data : List ℚ) :
    spec_prefix_sums data = cumsum (data.map (fun x => x - 1)) := by
  rw [spec_prefix_sums, cumsum_eq_map]
  simp only [List.length_map]
  apply List.map_congr_left
  intro i _
  rw [List.map_take]

lemma foldl_min_assoc (ys : List ℚ) : ∀ a b : ℚ, ys.foldl min (min a b) = min a (ys.foldl min b) := by
  induction ys with
  | nil => intro a b; simp
  | cons y ys ih =>
      intro a b
      simp only [List.foldl_cons]
      rw [min_assoc, ih]

lemma foldl_max_assoc (ys : List ℚ) : ∀ a b : ℚ, ys.foldl max (max a b) = max a (ys.foldl max b) := by
  induction ys with
  | nil => intro a b; simp
  | cons y ys ih =>
      intro a b
      simp only [List.foldl_cons]
      rw [max_assoc, ih]

lemma listMinRec_cons (xs : List ℚ) : ∀ x : ℚ, listMinRec (x :: xs) = some (xs.foldl min x) := by
  induction xs with
  | nil => intro x; simp [listMinRec]
  | cons y ys ih =>
      intro x
      rw [listMinRec, ih y]
      show some (min x (List.foldl min y ys)) = some (List.foldl min (min x y) ys)
      exact congrArg some (foldl_min_assoc ys x y).symm

lemma listMaxRec_cons (xs : List ℚ) : ∀ x : ℚ, listMaxRec (x :: xs) = some (xs.foldl max x) := by
  induction xs with
  | nil => intro x; simp [listMaxRec]
  | cons y ys ih =>
      intro x
      rw [listMaxRec, ih y]
      show some (max x (List.foldl max y ys)) = some (List.foldl max (max x y) ys)
      exact congrArg some (foldl_max_assoc ys x y).symm

lemma minD_eq_listMinRec (l : List ℚ) : minD l = (listMinRec l).getD 0 := by
  cases l with
  | nil => simp [minD, listMinRec]
  | cons x xs => simp [minD, listMinRec_cons, List.foldl_cons]

lemma maxD_eq_listMaxRec (l : List ℚ) : maxD l = (listMaxRec l).getD 0 := by
  cases l with
  | nil => simp [maxD, listMaxRec]
  | cons x xs => simp [maxD, listMaxRec_cons, List.foldl_cons]

lemma spec_norm_curve_eq (data : List ℚ) : spec_norm_curve data = normalized_cumsum data := by
  rw [spec_norm_curve, normalized_cumsum, spec_prefix_sums_eq, minD_eq_listMinRec,
    maxD_eq_listMaxRec]

/-- C3: for every supported model the unique slot list preserves template
order, suffixes a kind with a numeric index (in order of first
appearance) exactly when the kind occurs more than once, and has the
template's length; ESR14N yields center, width, contrast_0, contrast_1,
contrast_2, offset. -/
theorem c3_unique_slots :
    (∀ m ∈ IMPLEMENTED_keys,
      ((IMPLEMENTED m).map (fun d => fitting_parameter_unique d.params))
          = ((IMPLEMENTED m).map (fun d => claimed_unique_slots d.params)) ∧
      ((IMPLEMENTED m).map (fun d => (fitting_parameter_unique d.params).length))
          = ((IMPLEMENTED m).map (fun d => d.params.length)) ∧
      (IMPLEMENTED m).isSome = true) ∧
    fitting_parameter_unique esr14nParams
      = ["center", "width", "contrast_0", "contrast_1", "contrast_2", "offset"] := by
  decide

/-- C3 witness: the theorem instantiated at ESR14N. -/
theorem c3_unique_slots_witness :
    ("ESR14N" ∈ IMPLEMENTED_keys) ∧
    ((IMPLEMENTED "ESR14N").map (fun d => fitting_parameter_unique d.params))
        = ((IMPLEMENTED "ESR14N").map (fun d => claimed_unique_slots d.params)) :=
  ⟨by decide, (c3_unique_slots.1 "ESR14N" (by decide)).1⟩

/-- C5 counterexample: on the spectrum [1, 1/2, 1/2, 1] over the strictly
ascending axis [0, 1, 2, 3] the code's width guess is +1/6 while the
claimed formula (frequency nearest 0.75 minus frequency nearest 0.25,
divided by 6) gives -1/6; and on [2, 2, 2, 2] the code's guess is
negative, refuting the claimed non-negativity. -/
theorem c5_width_guess_counterexample :
    guess_width_pixel [1, 1/2, 1/2, 1] [0, 1, 2, 3] = some (1/6) ∧
    claim_width_guess [1, 1/2, 1/2, 1] [0, 1, 2, 3] = some (-(1/6)) ∧
    guess_width_pixel [1, 1/2, 1/2, 1] [0, 1, 2, 3]
      ≠ claim_width_guess [1, 1/2, 1/2, 1] [0, 1, 2, 3] ∧
    guess_width_pixel [2, 2, 2, 2] [0, 1, 2, 3] = some (-(1/6)) := by
  have h : normalized_cumsum [1, 1/2, 1/2, 1] = some [1, 1/2, 0, 0] := by
    norm_num [normalized_cumsum, cumsum, cumsumFrom, minD, maxD]
  have h2 : normalized_cumsum [2, 2, 2, 2] = some [0, 1/3, 2/3, 1] := by
    norm_num [normalized_cumsum, cumsum, cumsumFrom, minD, maxD]
  have hs : spec_norm_curve [1, 1/2, 1/2, 1] = some [1, 1/2, 0, 0] := by
    rw [spec_norm_curve_eq, h]
  refine ⟨?_, ?_, ?_, ?_⟩ <;>
    norm_num [guess_width_pixel, guess_width_single, claim_width_guess, nearest_idx,
      argminList, argminAux, h, h2, hs, List.getD, abs_eq_max_neg, max_def]

/-- C5 amended: for every pixel spectrum with a non-degenerate cumulative
curve over a strictly ascending frequency axis, the width initial guess
equals the negation of the claimed interquartile formula: the frequency
at the index nearest 0.25 minus the frequency at the index nearest 0.75,
divided by 6 (and it need not be non-negative). -/
theorem c5_width_guess_amended (data freq : List ℚ)
    (_hasc : List.Chain' (fun a b : ℚ => a < b) freq)
    (hndeg : (spec_norm_curve data).isSome = true) :
    guess_width_pixel data freq = (claim_width_guess data freq).map (fun w => -w) := by
  rcases h : spec_norm_curve data with _ | c
  · rw [h] at hndeg
    simp at hndeg
  · have hc : normalized_cumsum data = some c := by rw [← spec_norm_curve_eq]; exact h
    simp only [guess_width_pixel, guess_width_single, claim_width_guess, nearest_idx, h, hc,
      Option.map_some, Option.map_map]
    refine congrArg some ?_
    simp only [Function.comp]
    ring

/-- C5 witness: the amended theorem applied to the counterexample
spectrum. -/
theorem c5_width_guess_witness :
    List.Chain' (fun a b : ℚ => a < b) [0, 1, 2, 3] ∧
    (spec_norm_curve [1, 1/2, 1/2, 1]).isSome = true ∧
    guess_width_pixel [1, 1/2, 1/2, 1] [0, 1, 2, 3]
      = (claim_width_guess [1, 1/2, 1/2, 1] [0, 1, 2, 3]).map (fun w => -w) := by
  have hch : List.Chain' (fun a b : ℚ => a < b) [0, 1, 2, 3] := by
    norm_num [List.chain'_cons, List.chain'_singleton]
  have hso : (spec_norm_curve [1, 1/2, 1/2, 1]).isSome = true := by
    have h : normalized_cumsum [1, 1/2, 1/2, 1] = some [1, 1/2, 0, 0] := by
      norm_num [normalized_cumsum, cumsum, cumsumFrom, minD, maxD]
    rw [spec_norm_curve_eq, h]
    rfl
  exact ⟨hch, hso, c5_width_guess_amended [1, 1/2, 1/2, 1] [0, 1, 2, 3] hch hso⟩

/-- C6: on a degenerate (zero-variance cumulative curve) spectrum the
embedded code returns the NaN marker from normalized_cumsum and both
seed heuristics propagate it; no error value is produced anywhere in the
pipeline, contradicting the claim that an explicit error is signalled or
the pixel flagged invalid. -/
theorem c6_degenerate_spectrum_nan :
    normalized_cumsum [1, 1, 1, 1] = none ∧
    guess_width_pixel [1, 1, 1, 1] [0, 1, 2, 3] = none ∧
    guess_center_freq_single [1, 1, 1, 1] [0, 1, 2, 3] = none := by
  have h : normalized_cumsum [1, 1, 1, 1] = none := by
    norm_num [normalized_cumsum, cumsum, cumsumFrom, minD, maxD]
  exact ⟨h, by simp [guess_width_pixel, guess_width_single, h],
    by simp [guess_center_freq_single, h]⟩

/-- C7: on every Fit instance on which no fit has completed, get_param
raises (NotImplementedError in the source, the spec's
ParameterLookupError) for every requested name, returning no value. -/
theorem c7_unfitted_get_param_raises (s : FitState) (p : String) (h : s.fitted = false) :
    get_param s p
      = .error (.notImplemented ("No fit has been performed yet. Run fit_odmr().")) := by
  simp [get_param, h]

/-- C7 witness: requesting chi2 on a freshly constructed (unfitted)
instance. -/
theorem c7_unfitted_get_param_witness :
    exFit.fitted = false ∧
    get_param exFit "chi2"
      = .error (.notImplemented ("No fit has been performed yet. Run fit_odmr().")) :=
  ⟨rfl, c7_unfitted_get_param_raises exFit "chi2" rfl⟩

/-- C2: invoking fit_odmr on an already fitted instance performs no
solver call (the call counter is 0) and returns the state - all cached
results - unchanged. -/
theorem c2_refit_noop (s : FitState) (solver : ℕ → RangeResult) (h : s.fitted = true) :
    fit_odmr s solver = (s, 0) := by
  simp [fit_odmr, h]

/-- C2 witness: refitting a fitted instance is a no-op with zero solver
calls. -/
theorem c2_refit_noop_witness :
    fittedFit.fitted = true ∧ fit_odmr fittedFit cexSolver = (fittedFit, 0) :=
  ⟨rfl, c2_refit_noop fittedFit cexSolver rfl⟩

/-- C10: assigning data equal to the current data is a complete no-op
(the state, including the fitted flag, cached results and cached initial
guess, is returned unchanged); assigning data that differs replaces the
data, resets the fitted flag, clears the cached results and clears the
cached initial-parameter guess. -/
theorem c10_data_setter_noop (s : FitState) (d : NpArray) :
    (s.data = d → set_data s d = s) ∧
    (s.data ≠ d →
      (set_data s d).data = d ∧ (set_data s d).fitted = false ∧
      (set_data s d).cache = none ∧ (set_data s d).initialParameter = none) := by
  constructor
  · intro h
    simp [set_data, h]
  · intro h
    simp [set_data, h]

/-- C10 witness: re-assigning the same array is the identity; assigning a
changed array clears the fit state and the cached guess. -/
theorem c10_data_setter_noop_witness :
    set_data exFit exData = exFit ∧
    (set_data exFit altData).data = altData ∧
    (set_data exFit altData).fitted = false ∧
    (set_data exFit altData).cache = none ∧
    (set_data exFit altData).initialParameter = none := by
  have h1 := (c10_data_setter_noop exFit exData).1 rfl
  have h2 := (c10_data_setter_noop exFit altData).2 (by
    simp only [exFit, exData, altData, ne_eq, NpArray.mk.injEq]
    norm_num)
  exact ⟨h1, h2.1, h2.2.1, h2.2.2.1, h2.2.2.2⟩

/-- C4: on a Fit with the ESR14N template, setting a constraint under the
bare family name contrast updates exactly the slots contrast_0,
contrast_1 and contrast_2, all with the same (min, max, kind) (and the
family unit), and leaves the stored constraint of every other key - in
particular center, width and offset - unchanged. -/
theorem c4_contrast_fanout (s : FitState) (a b : ℚ) (h : s.modelParams = esr14nParams) :
    ∃ s2, set_constraints s "contrast" (some a) (some b) (some "FREE") = .ok s2 ∧
      s2.constraints "contrast_0" = some ⟨some a, some b, some "FREE", "a.u."⟩ ∧
      s2.constraints "contrast_1" = some ⟨some a, some b, some "FREE", "a.u."⟩ ∧
      s2.constraints "contrast_2" = some ⟨some a, some b, some "FREE", "a.u."⟩ ∧
      ∀ k, k ≠ "contrast_0" → k ≠ "contrast_1" → k ≠ "contrast_2" →
        s2.constraints k = s.constraints k := by
  have hc : (fitting_parameter_unique esr14nParams).filter
      (fun v => strContainsSub v ("contrast")) = ["contrast_0", "contrast_1", "contrast_2"] := by
    decide
  simp only [set_constraints, h]
  rw [hc]
  refine ⟨_, rfl, ?_, ?_, ?_, ?_⟩
  · simp [set_constraints_one, set_constraints_store]
  · simp [set_constraints_one, set_constraints_store]
  · simp [set_constraints_one, set_constraints_store]
  · intro k h0 h1 h2
    simp [set_constraints_one, set_constraints_store, h0, h1, h2]

/-- C4 witness: the fan-out applied on a concrete ESR14N Fit whose
center constraint is already stored; the three contrast slots receive
the new bounds and center keeps its stored value. -/
theorem c4_contrast_fanout_witness :
    c4Fit.modelParams = esr14nParams ∧
    (set_constraints c4Fit "contrast" (some 0) (some (1/10)) (some "FREE")).map
        (fun s2 => (s2.constraints "contrast_0", s2.constraints "contrast_1",
                    s2.constraints "contrast_2", s2.constraints "center"))
      = .ok (some ⟨some 0, some (1/10), some "FREE", "a.u."⟩,
             some ⟨some 0, some (1/10), some "FREE", "a.u."⟩,
             some ⟨some 0, some (1/10), some "FREE", "a.u."⟩,
             c4Fit.constraints "center") := by
  obtain ⟨s2, hrun, h0, h1, h2, hframe⟩ := c4_contrast_fanout c4Fit 0 (1/10) rfl
  refine ⟨rfl, ?_⟩
  rw [hrun]
  simp only [Except.map]
  rw [h0, h1, h2, hframe "center" (by decide) (by decide) (by decide)]

/-- C8: the model setter rejects a name outside the registry with the
error enumerating exactly the allowed set (GAUSS1D, ESR14N, ESR15N,
ESRSINGLE), mutating nothing; each registered (uppercase) name is
accepted; the constructor accepts names case-insensitively because it
upper-cases before the setter; but assigning a registered name in
non-uppercase spelling to the model property raises KeyError, because
the setter validates model.upper() and then indexes the registry with
the raw string. -/
theorem c8_model_name_validation :
    set_model exFit "FOO" = .error (.unknownModel ["GAUSS1D", "ESR14N", "ESR15N", "ESRSINGLE"]) ∧
    (set_model exFit "GAUSS1D").map (fun s => s.model) = .ok "GAUSS1D" ∧
    (set_model exFit "ESR14N").map (fun s => s.model) = .ok "ESR14N" ∧
    (set_model exFit "ESR15N").map (fun s => s.model) = .ok "ESR15N" ∧
    (set_model exFit "ESRSINGLE").map (fun s => s.model) = .ok "ESRSINGLE" ∧
    (mkFit exData exFreq "esr15n" exSettings).map (fun s => s.model) = .ok "ESR15N" ∧
    set_model exFit "esr15n" = .error (.keyError "esr15n") :=
  ⟨rfl, rfl, rfl, rfl, rfl, rfl, rfl⟩

/- Helper: running the constraint-collecting fold of
get_constraints_array when every slot has a stored constraint. -/
lemma foldlM_constraints (m : String → Option Constraint) :
    ∀ (ks : List String) (acc : List (Option ℚ)),
      (∀ k ∈ ks, (m k).isSome = true) →
      (ks.foldlM
        (fun (acc : List (Option ℚ)) k =>
          match m k with
          | none => Except.error (PyErr.keyError k)
          | some c => Except.ok (acc ++ [c.vmin, c.vmax]))
        acc : Except PyErr (List (Option ℚ)))
        = Except.ok (acc ++ ks.flatMap (fun k =>
            [((m k).getD ⟨none, none, none, ""⟩).vmin,
             ((m k).getD ⟨none, none, none, ""⟩).vmax])) := by
  intro ks
  induction ks with
  | nil =>
      intro acc _
      show Except.ok acc = _
      simp
  | cons k ks ih =>
      intro acc h
      obtain ⟨c, hc⟩ := Option.isSome_iff_exists.mp (h k (by simp))
      rw [List.foldlM_cons, hc]
      show (ks.foldlM _ (acc ++ [c.vmin, c.vmax]) : Except PyErr (List (Option ℚ))) = _
      rw [ih (acc ++ [c.vmin, c.vmax]) (fun k2 hk2 => h k2 (by simp [hk2]))]
      simp [hc, List.append_assoc]

/-- C9: for every pixel count n at least 1 and every Fit whose unique
slots all carry stored constraints, get_constraints_array returns n
identical rows, each row listing the (min, max) pair of every unique
slot in slot order, so the result has shape
(n, 2 x number of unique slots). -/
theorem c9_constraints_array (s : FitState) (n : ℕ) (_hn : 1 ≤ n)
    (h : ∀ k ∈ fitting_parameter_unique s.modelParams, ((s.constraints k).isSome = true)) :
    get_constraints_array s n
      = .ok (List.replicate n ((fitting_parameter_unique s.modelParams).flatMap
          (fun k => [((s.constraints k).getD ⟨none, none, none, ""⟩).vmin,
                     ((s.constraints k).getD ⟨none, none, none, ""⟩).vmax]))) ∧
    ((fitting_parameter_unique s.modelParams).flatMap
        (fun k => [((s.constraints k).getD ⟨none, none, none, ""⟩).vmin,
                   ((s.constraints k).getD ⟨none, none, none, ""⟩).vmax])).length
      = 2 * (fitting_parameter_unique s.modelParams).length := by
  constructor
  · rw [get_constraints_array]
    rw [foldlM_constraints (s.constraints) (fitting_parameter_unique s.modelParams) [] h]
    rfl
  · rw [List.length_flatMap]
    induction fitting_parameter_unique s.modelParams with
    | nil => simp
    | cons k ks ih => simp [ih]; ring

/-- C9 witness: on a concrete ESRSINGLE Fit with all four slots
constrained and n = 2, the array is two identical rows of the four
(min, max) pairs in slot order. -/
theorem c9_constraints_array_witness :
    1 ≤ 2 ∧
    (∀ k ∈ fitting_parameter_unique c9Fit.modelParams, ((c9Fit.constraints k).isSome = true)) ∧
    get_constraints_array c9Fit 2
      = .ok (List.replicate 2 ((fitting_parameter_unique c9Fit.modelParams).flatMap
          (fun k => [((c9Fit.constraints k).getD ⟨none, none, none, ""⟩).vmin,
                     ((c9Fit.constraints k).getD ⟨none, none, none, ""⟩).vmax]))) := by
  refine ⟨by decide, by decide, ?_⟩
  exact (c9_constraints_array c9Fit 2 (by decide) (by decide)).1

/- Arithmetic helpers for C-order index calculations. -/

lemma mul_add_lt_mul {i o d m : ℕ} (hi : i < d) (ho : o < m) : i * m + o < d * m := by
  calc i * m + o < i * m + m := by omega
    _ = (i + 1) * m := by ring
    _ ≤ d * m := Nat.mul_le_mul_right m hi

lemma div_mod_split {q s D : ℕ} (h : s < D) : (q * D + s) / D = q ∧ (q * D + s) % D = s := by
  have hD : 0 < D := by omega
  constructor
  · rw [Nat.add_comm, Nat.add_mul_div_right _ _ hD, Nat.div_eq_of_lt h, Nat.zero_add]
  · rw [Nat.add_comm, Nat.add_mul_mod_self_right, Nat.mod_eq_of_lt h]

lemma getD_range_map (g : ℕ → ℚ) (N t : ℕ) (d : ℚ) (h : t < N) :
    ((List.range N).map g).getD t d = g t := by
  have hlen : t < ((List.range N).map g).length := by simpa using h
  rw [List.getD_eq_getElem _ _ hlen]
  simp

lemma flatIdx_three (a b c j i x : ℕ) :
    flatIdx [a, b, c] [j, i, x] = j * (b * c) + (i * c + x) := by
  simp [flatIdx]

lemma flatIdx_four (a b c d i j x k : ℕ) :
    flatIdx [a, b, c, d] [i, j, x, k] = i * (b * (c * d)) + (j * (c * d) + (x * d + k)) := by
  simp [flatIdx]

/- Entry of the materialized swapaxes(0, 1): position (j, i, rest-offset)
of the result reads position (i, j, rest-offset) of the input (j along
the new leading axis of extent d1, i along the new second axis of extent
d0). -/
lemma swapaxes01_getD (d0 d1 : ℕ) (rest : List ℕ) (data : List ℚ) (i j o : ℕ)
    (hi : i < d0) (hj : j < d1) (ho : o < rest.prod) :
    (swapaxes01 ⟨d0 :: d1 :: rest, data⟩).data.getD
        (j * (d0 * rest.prod) + (i * rest.prod + o)) 0
      = data.getD (i * (d1 * rest.prod) + (j * rest.prod + o)) 0 := by
  have hio : i * rest.prod + o < d0 * rest.prod := mul_add_lt_mul hi ho
  have ht : j * (d0 * rest.prod) + (i * rest.prod + o) < d1 * (d0 * rest.prod) :=
    mul_add_lt_mul hj hio
  have h1 := div_mod_split (q := j) hio
  have h2 := div_mod_split (q := i) ho
  simp only [swapaxes01]
  rw [getD_range_map _ _ _ _ ht, h1.1, h1.2, h2.1, h2.2, Nat.add_assoc]

/- Shape computation of reshape_result on a 2-polarization,
2-frequency-range dataset: an (2*npix, n3)-sized solver output becomes
[2, npix, n3] (squeeze drops nothing when npix, n3 exceed 1). -/
lemma reshape_result_eq (s : FitState) (r : NpArray) (npix n3 : ℕ)
    (h1 : s.data.shape.getD 1 0 = 2) (h2 : s.data.shape.getD 2 0 = npix)
    (hlen : r.data.length = 2 * npix * n3)
    (hnp : 2 ≤ npix) (hn3 : 2 ≤ n3) :
    reshape_result s r = ⟨[2, npix, n3], r.data⟩ := by
  have hpos : 0 < 2 * npix := by omega
  have hdiv : r.data.length / (2 * npix) = n3 := by
    rw [hlen]
    exact Nat.mul_div_cancel_left n3 hpos
  have e1 : npix ≠ 1 := by omega
  have e2 : n3 ≠ 1 := by omega
  rw [reshape_result, h1, h2, reshape3, hdiv, squeeze]
  simp [e1, e2]

/- Shape computation of reshape_result on the 1-D per-row outputs
(states, chi-squares, iteration counts): a (2*npix,)-sized output
becomes [2, npix] after the singleton last axis is squeezed away. -/
lemma reshape_result_eq_one (s : FitState) (r : NpArray) (npix : ℕ)
    (h1 : s.data.shape.getD 1 0 = 2) (h2 : s.data.shape.getD 2 0 = npix)
    (hlen : r.data.length = 2 * npix) (hnp : 2 ≤ npix) :
    reshape_result s r = ⟨[2, npix], r.data⟩ := by
  have hpos : 0 < 2 * npix := by omega
  have hdiv : r.data.length / (2 * npix) = 1 := by
    rw [hlen]
    exact Nat.div_self hpos
  have e1 : npix ≠ 1 := by omega
  rw [reshape_result, h1, h2, reshape3, hdiv, squeeze]
  simp [e1]

/- Unfolding fit_odmr on a dataset with two frequency ranges: the cache
holds the stacked, reshaped solver outputs of ranges 0 and 1, with the
axes 0/1 swap applied to the fitted parameters only. -/
lemma fit_odmr_two_ranges (s : FitState) (solver : ℕ → RangeResult)
    (h2 : s.data.shape.getD 1 0 = 2) (hf : s.fitted = false) :
    (fit_odmr s solver).1.cache = some
      { fitResults := swapaxes01 (stack2 (reshape_result s (solver 0).parameters)
          (reshape_result s (solver 1).parameters)),
        states := stack2 (reshape_result s (solver 0).states)
          (reshape_result s (solver 1).states),
        chiSquares := stack2 (reshape_result s (solver 0).chiSquares)
          (reshape_result s (solver 1).chiSquares),
        numberIterations := stack2 (reshape_result s (solver 0).numberIterations)
          (reshape_result s (solver 1).numberIterations),
        executionTime := Sum.inr ⟨[2], [(solver 0).executionTime, (solver 1).executionTime]⟩ } := by
  have hr : List.range 2 = [0, 1] := rfl
  simp only [fit_odmr, hf, Bool.false_eq_true, if_false, h2, hr, List.foldl_cons,
    List.foldl_nil, accumRange, Option.map_some]
  rfl

/- Entry of the stacked pair of [2, npix] arrays at index [j, i, x]:
block j (the frequency range the code stacked first), row i, pixel x. -/
lemma stack2_pix_getD (d0 d1 : List ℚ) (npix j i x : ℕ)
    (hl0 : d0.length = 2 * npix) (hj : j < 2) (hi : i < 2) (hx : x < npix) :
    npGet (stack2 ⟨[2, npix], d0⟩ ⟨[2, npix], d1⟩) [j, i, x]
      = (if j = 0 then d0 else d1).getD (i * npix + x) 0 := by
  simp only [npGet, stack2, flatIdx_three]
  rcases (by omega : j = 0 ∨ j = 1) with rfl | rfl
  · have hb : 0 * (2 * npix) + (i * npix + x) < d0.length := by
      rw [hl0]
      rcases (by omega : i = 0 ∨ i = 1) with rfl | rfl <;> omega
    rw [List.getD_append _ _ _ _ hb]
    simp
  · have hge : d0.length ≤ 1 * (2 * npix) + (i * npix + x) := by
      rw [hl0]; omega
    rw [List.getD_append_right _ _ _ _ hge]
    rw [hl0]
    have : 1 * (2 * npix) + (i * npix + x) - 2 * npix = i * npix + x := by omega
    rw [this]
    simp

/- Entry of the axes-0/1-swapped stack of the two per-range parameter
arrays at index [i, j, x, k]: polarization i, frequency range j, pixel x,
slot k reads row i * npix + x, slot k of range j's solver output. -/
lemma swap_stack_params_getD (p0 p1 : List ℚ) (npix ns i j x k : ℕ)
    (hl0 : p0.length = 2 * npix * ns)
    (hi : i < 2) (hj : j < 2) (hx : x < npix) (hk : k < ns) :
    npGet (swapaxes01 (stack2 ⟨[2, npix, ns], p0⟩ ⟨[2, npix, ns], p1⟩)) [i, j, x, k]
      = (if j = 0 then p0 else p1).getD ((i * npix + x) * ns + k) 0 := by
  have hrest : List.prod [npix, ns] = npix * ns := by simp
  have ho : x * ns + k < List.prod [npix, ns] := by
    rw [hrest]; exact mul_add_lt_mul hx hk
  have key := swapaxes01_getD 2 2 [npix, ns] (p0 ++ p1) j i (x * ns + k) hj hi ho
  rw [hrest] at key
  show (swapaxes01 ⟨[2, 2, npix, ns], p0 ++ p1⟩).data.getD
      (flatIdx [2, 2, npix, ns] [i, j, x, k]) 0 = _
  rw [flatIdx_four, key]
  have hb : x * ns + k < npix * ns := mul_add_lt_mul hx hk
  rcases (by omega : j = 0 ∨ j = 1) with rfl | rfl
  · have hlt : 0 * (2 * (npix * ns)) + (i * (npix * ns) + (x * ns + k)) < p0.length := by
      rw [hl0, Nat.mul_assoc]
      rcases (by omega : i = 0 ∨ i = 1) with rfl | rfl <;> omega
    rw [List.getD_append _ _ _ _ hlt]
    have hidx : 0 * (2 * (npix * ns)) + (i * (npix * ns) + (x * ns + k))
        = (i * npix + x) * ns + k := by ring
    rw [hidx]
    simp
  · rcases (by omega : i = 0 ∨ i = 1) with rfl | rfl
    · have hsplit : 1 * (2 * (npix * ns)) + (0 * (npix * ns) + (x * ns + k))
          = p0.length + ((0 * npix + x) * ns + k) := by rw [hl0]; ring
      rw [hsplit, List.getD_append_right _ _ _ _ (Nat.le_add_right _ _), Nat.add_sub_cancel_left]
      simp
    · have hsplit : 1 * (2 * (npix * ns)) + (1 * (npix * ns) + (x * ns + k))
          = p0.length + ((1 * npix + x) * ns + k) := by rw [hl0]; ring
      rw [hsplit, List.getD_append_right _ _ _ _ (Nat.le_add_right _ _), Nat.add_sub_cancel_left]
      simp

/-- C1 amended: after fitting a two-frequency-range dataset, the fitted
parameter array alone is arranged [polarization, frequency_range, pixel,
slot] (its axes 0/1 are swapped), while the state codes, chi-squares and
iteration counts remain arranged [frequency_range, polarization, pixel] -
the frequency-range axis first - because fit_odmr swaps axes only on
_fit_results. -/
theorem c1_result_axes_amended (s : FitState) (solver : ℕ → RangeResult)
    (npix ns nfreq : ℕ)
    (hshape : s.data.shape = [2, 2, npix, nfreq])
    (hf : s.fitted = false)
    (hpix : 2 ≤ npix) (hns : 2 ≤ ns)
    (hplen : ∀ j, (solver j).parameters.data.length = 2 * npix * ns)
    (hslen : ∀ j, (solver j).states.data.length = 2 * npix)
    (hclen : ∀ j, (solver j).chiSquares.data.length = 2 * npix)
    (hilen : ∀ j, (solver j).numberIterations.data.length = 2 * npix) :
    ((fit_odmr s solver).1.cache.map (fun c => c.fitResults.shape)) = some [2, 2, npix, ns] ∧
    ((fit_odmr s solver).1.cache.map (fun c => c.states.shape)) = some [2, 2, npix] ∧
    ((fit_odmr s solver).1.cache.map (fun c => c.chiSquares.shape)) = some [2, 2, npix] ∧
    ((fit_odmr s solver).1.cache.map (fun c => c.numberIterations.shape)) = some [2, 2, npix] ∧
    (∀ i j x k, i < 2 → j < 2 → x < npix → k < ns →
      ((fit_odmr s solver).1.cache.map (fun c => npGet c.fitResults [i, j, x, k]))
        = some ((solver j).parameters.data.getD ((i * npix + x) * ns + k) 0)) ∧
    (∀ j i x, j < 2 → i < 2 → x < npix →
      ((fit_odmr s solver).1.cache.map (fun c => npGet c.states [j, i, x]))
        = some ((solver j).states.data.getD (i * npix + x) 0)) ∧
    (∀ j i x, j < 2 → i < 2 → x < npix →
      ((fit_odmr s solver).1.cache.map (fun c => npGet c.chiSquares [j, i, x]))
        = some ((solver j).chiSquares.data.getD (i * npix + x) 0)) ∧
    (∀ j i x, j < 2 → i < 2 → x < npix →
      ((fit_odmr s solver).1.cache.map (fun c => npGet c.numberIterations [j, i, x]))
        = some ((solver j).numberIterations.data.getD (i * npix + x) 0)) := by
  have h1 : s.data.shape.getD 1 0 = 2 := by rw [hshape]; rfl
  have h2p : s.data.shape.getD 2 0 = npix := by rw [hshape]; rfl
  have hcache := fit_odmr_two_ranges s solver h1 hf
  rw [reshape_result_eq s _ npix ns h1 h2p (hplen 0) hpix hns,
    reshape_result_eq s _ npix ns h1 h2p (hplen 1) hpix hns,
    reshape_result_eq_one s _ npix h1 h2p (hslen 0) hpix,
    reshape_result_eq_one s _ npix h1 h2p (hslen 1) hpix,
    reshape_result_eq_one s _ npix h1 h2p (hclen 0) hpix,
    reshape_result_eq_one s _ npix h1 h2p (hclen 1) hpix,
    reshape_result_eq_one s _ npix h1 h2p (hilen 0) hpix,
    reshape_result_eq_one s _ npix h1 h2p (hilen 1) hpix] at hcache
  rw [hcache]
  refine ⟨rfl, rfl, rfl, rfl, ?_, ?_, ?_, ?_⟩
  · intro i j x k hi hj hx hk
    simp only [Option.map_some', Option.some.injEq]
    rw [swap_stack_params_getD _ _ npix ns i j x k (hplen 0) hi hj hx hk]
    rcases (by omega : j = 0 ∨ j = 1) with rfl | rfl <;> simp
  · intro j i x hj hi hx
    simp only [Option.map_some', Option.some.injEq]
    rw [stack2_pix_getD _ _ npix j i x (hslen 0) hj hi hx]
    rcases (by omega : j = 0 ∨ j = 1) with rfl | rfl <;> simp
  · intro j i x hj hi hx
    simp only [Option.map_some', Option.some.injEq]
    rw [stack2_pix_getD _ _ npix j i x (hclen 0) hj hi hx]
    rcases (by omega : j = 0 ∨ j = 1) with rfl | rfl <;> simp
  · intro j i x hj hi hx
    simp only [Option.map_some', Option.some.injEq]
    rw [stack2_pix_getD _ _ npix j i x (hilen 0) hj hi hx]
    rcases (by omega : j = 0 ∨ j = 1) with rfl | rfl <;> simp

/-- C1 counterexample: on a concrete two-range dataset (one pixel per
range, so the pixel axis is squeezed away) the final state-code array
holds, at index [0, 1], the value 1 - range 0, polarization 1 - whereas
the claimed [polarization, frequency_range] arrangement requires the
polarization-0, range-1 state 10 there.  The state-code array (like
chi-squares and iteration counts) is not arranged polarization-first. -/
theorem c1_states_axis_counterexample :
    ((fit_odmr exFit cexSolver).1.cache.map (fun c => npGet c.states [0, 1])) = some 1 ∧
    claimed_state_entry cexSolver 1 0 1 0 = 10 ∧
    ((fit_odmr exFit cexSolver).1.cache.map (fun c => npGet c.states [0, 1]))
      ≠ some (claimed_state_entry cexSolver 1 0 1 0) := by
  have h1 : ((fit_odmr exFit cexSolver).1.cache.map (fun c => npGet c.states [0, 1]))
      = some 1 := rfl
  have h2 : claimed_state_entry cexSolver 1 0 1 0 = 10 := rfl
  refine ⟨h1, h2, ?_⟩
  rw [h1, h2]
  norm_num

/-- C1 witness: the amended theorem applied to a concrete 2-pixel,
2-slot dataset; the state entry at [1, 0, 1] is range 1, polarization 0,
pixel 1 of the solver output, and the fitted-parameter entry at
[1, 0, 1, 1] is polarization 1, range 0, pixel 1, slot 1. -/
theorem c1_result_axes_witness :
    cwFit.data.shape = [2, 2, 2, 2] ∧ cwFit.fitted = false ∧
    ((fit_odmr cwFit cwSolver).1.cache.map (fun c => c.fitResults.shape)) = some [2, 2, 2, 2] ∧
    ((fit_odmr cwFit cwSolver).1.cache.map (fun c => c.states.shape)) = some [2, 2, 2] ∧
    ((fit_odmr cwFit cwSolver).1.cache.map (fun c => npGet c.states [1, 0, 1]))
      = some ((cwSolver 1).states.data.getD 1 0) ∧
    ((fit_odmr cwFit cwSolver).1.cache.map (fun c => npGet c.fitResults [1, 0, 1, 1]))
      = some ((cwSolver 0).parameters.data.getD 7 0) := by
  have h := c1_result_axes_amended cwFit cwSolver 2 2 2 rfl rfl (by omega) (by omega)
    (fun j => by cases j <;> rfl) (fun j => by cases j <;> rfl)
    (fun j => by cases j <;> rfl) (fun j => by cases j <;> rfl)
  refine ⟨rfl, rfl, h.1, h.2.1, ?_, ?_⟩
  · have hs := h.2.2.2.2.2.1 1 0 1 (by omega) (by omega) (by omega)
    simpa using hs
  · have hp := h.2.2.2.2.1 1 0 1 1 (by omega) (by omega) (by omega) (by omega)
    simpa using hp
